import Mathlib

/-!
Verification of the Minetrack-KR monitoring pipeline's persistence and
startup-rehydration layer (`lib/database.js`, `main.js`), shallowly embedded
in Lean 4.

The `pings` table is a list of rows; queries are list functions mirroring the
SQL issued by `lib/database.js`.  Rows appear in the list in the order the
persistence layer returns them (the code issues no `ORDER BY` on the
rehydration query, so this order is an input of the model, not a guarantee).
-/

/-- One row of the `pings` table: `(timestamp BIGINT NOT NULL, ip VARCHAR, playerCount INTEGER)`.
`playercount` is nullable (a gap sample). -/
structure PingRow where
  ip : String
  timestamp : Int
  playercount : Option Int
deriving DecidableEq, Repr

/-- One row of the `players_record` table:
`(timestamp BIGINT, ip VARCHAR NOT NULL PRIMARY KEY, playerCount INTEGER)`. -/
structure RecordRow where
  ip : String
  timestamp : Option Int
  playercount : Option Int
deriving DecidableEq, Repr

/-- The `serverRegistration.recordData` object as assigned by `Database.loadRecords`. -/
structure RecordData where
  playerCount : Option Int
  timestamp : Option Int
deriving DecidableEq, Repr

/-- Per-host registration state relevant to rehydration: the coarse graph
window (two parallel sequences), the in-window peak, and the record. -/
structure ServerRegistration where
  ip : String
  graphTimestamps : List Int
  graphCounts : List (Option Int)
  graphPeakData : Option (Int × Int)
  recordData : Option RecordData
deriving DecidableEq, Repr

/-- The shared timestamp axis held by the `TimeTracker` instance. -/
structure TimeTrackerState where
  axis : List Int
deriving DecidableEq, Repr

/-- Modelled from the spec: `lib/time.js` is not part of the sources.  The
spec's record scenario ("persisted samples with max count 42 at t=100 yield
the record (42, 100)") keeps record timestamps in the same units as sample
timestamps, so the conversion applied by `loadRecords` is the identity on the
model's timestamps (null maps to null). -/
def TimeTracker.toSeconds (timestamp : Option Int) : Option Int :=
  timestamp

/-- Modelled from the spec: `lib/time.js` is not part of the sources.  The
SharedTimestampAxis is "a single ordered sequence of tick timestamps shared
across all hosts"; `timeTracker.loadGraphPoints(startTime, timestamps)` loads
the given timestamps as the axis. -/
def TimeTracker.loadGraphPoints (_t : TimeTrackerState) (_startTime : Int)
    (timestamps : List Int) : TimeTrackerState :=
  { axis := timestamps }

/-- Modelled from the spec: `lib/servers.js` is not part of the sources.
`loadHistorical(startTime, timestamps[], counts[])` is the "one-time
rehydration call made at startup ... populating the coarse window from
persisted samples". -/
def ServerRegistration.loadGraphPoints (reg : ServerRegistration)
    (_startTime : Int) (timestamps : List Int) (counts : List (Option Int)) :
    ServerRegistration :=
  { reg with graphTimestamps := timestamps, graphCounts := counts }

/-- In-window peak of a coarse window given as parallel timestamp/count
sequences: the greatest non-null count together with its timestamp. -/
def windowPeak : List Int → List (Option Int) → Option (Int × Int)
  | t :: ts, c :: cs =>
    let rest := windowPeak ts cs
    match c with
    | none => rest
    | some v =>
      match rest with
      | none => some (v, t)
      | some (bv, bt) => if bv < v then some (v, t) else some (bv, bt)
  | _, _ => none

/-- Modelled from the spec: `lib/servers.js` is not part of the sources.
`findNewGraphPeak()` "recomputes the in-window peak after a bulk load,
independent of the persisted record"; it stores that peak (it does not write
`recordData`, which `loadRecords` assigns separately). -/
def ServerRegistration.findNewGraphPeak (reg : ServerRegistration) :
    ServerRegistration :=
  { reg with graphPeakData := windowPeak reg.graphTimestamps reg.graphCounts }

/-- The query `SELECT * FROM pings WHERE timestamp >= $1 AND timestamp <= $2`
(`Database.getRecentPings`), preserving the order rows come back in. -/
def Database.getRecentPings (pings : List PingRow) (startTime endTime : Int) :
    List PingRow :=
  pings.filter (fun r => decide (startTime ≤ r.timestamp) && decide (r.timestamp ≤ endTime))

/-- The query `SELECT playercount, timestamp FROM players_record WHERE ip = $1` and the
caller's `result.rows[0]` (`Database.getRecord`): the first row for `ip`. -/
def Database.getRecord (records : List RecordRow) (ip : String) :
    Option RecordRow :=
  (records.filter (fun row => decide (row.ip = ip))).head?

/-- A row of maximal `playercount` in a list (all rows are assumed non-null
by the caller's filter); models `ORDER BY playercount DESC LIMIT 1`, whose
tie-break among equal counts SQL leaves unspecified. -/
def maxRow : List PingRow → Option PingRow
  | [] => none
  | r :: rest =>
    match maxRow rest with
    | none => some r
    | some b => some (if r.playercount.getD 0 < b.playercount.getD 0 then b else r)

/-- The query `SELECT playercount, timestamp FROM pings WHERE ip = $1 AND playercount
IS NOT NULL ORDER BY playercount DESC LIMIT 1` (`Database.getRecordLegacy`). -/
def Database.getRecordLegacy (pings : List PingRow) (ip : String) :
    Option PingRow :=
  maxRow (pings.filter (fun r => decide (r.ip = ip) && r.playercount.isSome))

/-- The statement `INSERT INTO players_record ... ON CONFLICT (ip) DO NOTHING`. -/
def insertRecordIfAbsent (records : List RecordRow) (row : RecordRow) :
    List RecordRow :=
  if records.any (fun r => decide (r.ip = row.ip)) then records
  else records ++ [row]

/-- The value `legacyRecord ? legacyRecord.timestamp : null` in `loadRecords`. -/
def legacyTs : Option PingRow → Option Int
  | some l => some l.timestamp
  | none => none

/-- The value `legacyRecord ? legacyRecord.playercount : null` in `loadRecords`. -/
def legacyPc : Option PingRow → Option Int
  | some l => l.playercount
  | none => none

/-- The body of `Database.loadRecords`, restricted to one server registration: call
`findNewGraphPeak`, read the persisted record, and either adopt it or derive
a legacy record from raw pings and insert it (if absent) into
`players_record`.  Returns the updated registration and record table. -/
def Database.loadRecordsHost (pings : List PingRow) (records : List RecordRow)
    (reg : ServerRegistration) : ServerRegistration × List RecordRow :=
  let reg1 := reg.findNewGraphPeak
  match Database.getRecord records reg.ip with
  | some record =>
    ({ reg1 with
        recordData := some { playerCount := record.playercount,
                             timestamp := TimeTracker.toSeconds record.timestamp } },
     records)
  | none =>
    let legacy := Database.getRecordLegacy pings reg.ip
    let newTimestamp := legacyTs legacy
    let newPlayerCount := legacyPc legacy
    ({ reg1 with
        recordData := some { playerCount := newPlayerCount,
                             timestamp := TimeTracker.toSeconds newTimestamp } },
     insertRecordIfAbsent records
       { ip := reg.ip, timestamp := newTimestamp, playercount := newPlayerCount })

/-- The keys of the `relativeGraphData` object in iteration order: JS string
keys iterate in insertion order, i.e. the order of each ip's first ping row. -/
def relKeys : List PingRow → List String
  | [] => []
  | r :: rest => r.ip :: (relKeys rest).filter (fun k => decide (k ≠ r.ip))

/-- The `relativeGraphData` object built by `Database.loadGraphPoints`: for
each ip (in first-occurrence order) the two parallel arrays grown by pushing
`row.timestamp` / `row.playercount` for each of that ip's rows in row order —
that is, the timestamps and counts of `rows.filter (ip match)` in order. -/
def relativeGraphData (rows : List PingRow) :
    List (String × List Int × List (Option Int)) :=
  (relKeys rows).map (fun ip =>
    let grp := rows.filter (fun r => decide (r.ip = ip))
    (ip, grp.map (fun r => r.timestamp), grp.map (fun r => r.playercount)))

/-- The inner `for ... break` of `Database.loadGraphPoints`: apply `f` to the
first registration whose `data.ip` matches, leaving the rest unchanged. -/
def updateFirstReg (regs : List ServerRegistration) (ip : String)
    (f : ServerRegistration → ServerRegistration) : List ServerRegistration :=
  match regs with
  | [] => []
  | r :: rest =>
    if r.ip = ip then f r :: rest else r :: updateFirstReg rest ip f

/-- The method `Database.loadGraphPoints(graphDuration)`: compute the window
`[endTime - graphDuration, endTime]`, fetch the rows, group them per ip, hand
each group to the matching registration's `loadGraphPoints`, and—if any group
exists—load the **first** ip's timestamps into the shared time tracker. -/
def Database.loadGraphPoints (pings : List PingRow)
    (regs : List ServerRegistration) (tracker : TimeTrackerState)
    (endTime graphDuration : Int) :
    List ServerRegistration × TimeTrackerState :=
  let startTime := endTime - graphDuration
  let pingData := Database.getRecentPings pings startTime endTime
  let rel := relativeGraphData pingData
  let regs2 := rel.foldl
    (fun rs e => updateFirstReg rs e.1
      (fun r => r.loadGraphPoints startTime e.2.1 e.2.2)) regs
  let tracker2 :=
    match rel with
    | [] => tracker
    | e :: _ => TimeTracker.loadGraphPoints tracker startTime e.2.1
  (regs2, tracker2)

/-- The method `Database.insertPing`: run the INSERT; on success the row is appended, on
a persistence error the exception is caught and logged (`logger.error`) and
the method returns normally—`.error` is never produced. -/
def Database.insertPing (pings : List PingRow) (ip : String) (timestamp : Int)
    (unsafePlayerCount : Option Int) (queryOutcome : Except String Unit) :
    Except String (List PingRow × List String) :=
  match queryOutcome with
  | Except.ok _ =>
    Except.ok (pings ++ [{ ip := ip, timestamp := timestamp,
                           playercount := unsafePlayerCount }], [])
  | Except.error _ =>
    Except.ok (pings, ["Cannot insert ping record of " ++ ip])

/-- The method `Database.deleteOldPings`: `DELETE FROM pings WHERE timestamp < $1` with
`$1 = now - config.graphDuration`; the surviving table. -/
def Database.deleteOldPings (pings : List PingRow) (now graphDuration : Int) :
    List PingRow :=
  pings.filter (fun r => decide (¬ r.timestamp < now - graphDuration))

/-- The expression `config.oldPingsCleanup.interval || 3600000`: JS `||` replaces a falsy
(absent or zero) configured interval with the one-hour default. -/
def Database.oldPingsIntervalMs (configured : Option Int) : Int :=
  match configured with
  | none => 3600000
  | some i => if i = 0 then 3600000 else i

/-- Result of `Database.initOldPingsDelete`: whether a cleanup pass ran
immediately and the interval (ms) of the repeating timer, if one was armed. -/
structure CleanupInit where
  ranImmediately : Bool
  timerIntervalMs : Option Int
deriving DecidableEq, Repr

/-- The method `Database.initOldPingsDelete`: run `deleteOldPings` once immediately,
then `setInterval` the same cleanup at the configured-or-default interval
whenever that interval is positive. -/
def Database.initOldPingsDelete (configured : Option Int)
    (pings : List PingRow) (now graphDuration : Int) :
    List PingRow × CleanupInit :=
  let pings2 := Database.deleteOldPings pings now graphDuration
  let interval := Database.oldPingsIntervalMs configured
  (pings2,
   { ranImmediately := true,
     timerIntervalMs := if 0 < interval then some interval else none })

/-- The test `if (!config.serverGraphDuration)`: the JS truthiness test on the
configured duration (absent or zero is falsy). -/
def isFalsyDuration : Option Int → Bool
  | none => true
  | some v => v = 0

/-- The assignment `config.serverGraphDuration = 3 * 60 * 10000` in `main.js` (primary). -/
def mainJsServerGraphDurationDefault : Int := 3 * 60 * 10000

/-- The same assignment in the second `main.js` variant. -/
def mainJsLegacyServerGraphDurationDefault : Int := 3 * 60 * 10000

/-- The same assignment in the third `main.js` variant. -/
def mainJsAsyncServerGraphDurationDefault : Int := 3 * 60 * 10000

/-- The same assignment in the first unnamed startup script. -/
def part000ServerGraphDurationDefault : Int := 3 * 60 * 10000

/-- The same assignment in the second unnamed startup script. -/
def part001ServerGraphDurationDefault : Int := 3 * 60 * 10000

/-- The value of `config.serverGraphDuration` after the startup default logic of
`main.js`: falsy values are replaced by the default, others kept. -/
def applyServerGraphDurationDefault (configured : Option Int) : Option Int :=
  if isFalsyDuration configured then some mainJsServerGraphDurationDefault
  else configured

/-- The constant `maxRetries = 10` in `main.js`. -/
def mainMaxRetries : Nat := 10

/-- The pause `await delay(15000)` in `main.js`: 15 seconds between attempts. -/
def mainRetryDelayMs : Nat := 15000

/-- How startup ends: the monitoring loop starts (`app.handleReady`, which
schedules the ping controller) after the database load succeeded on the given
attempt, having waited the given total delay; or the process exits. -/
inductive StartupOutcome where
  | ready (attempt : Nat) (delayWaitedMs : Nat)
  | exited (code : Nat)
deriving DecidableEq, Repr

/-- The retry loop of `main.js`: attempts numbered from `attempt`, at most
`remaining` of them; a failed attempt exits with code 1 when it was the last,
and otherwise waits `mainRetryDelayMs` and retries. -/
def retryFrom (loadSucceeds : Nat → Bool) (attempt : Nat) :
    Nat → StartupOutcome
  | 0 => StartupOutcome.exited 1
  | remaining + 1 =>
    if loadSucceeds attempt then
      StartupOutcome.ready attempt ((attempt - 1) * mainRetryDelayMs)
    else if remaining = 0 then StartupOutcome.exited 1
    else retryFrom loadSucceeds (attempt + 1) remaining

/-- The function `main()` in `main.js`, abstracted over which load attempts would succeed:
with database logging enabled it runs the retry loop before `handleReady`;
with it disabled it proceeds straight to `handleReady` (attempt 0). -/
def mainStartup (logToDatabase : Bool) (loadSucceeds : Nat → Bool) :
    StartupOutcome :=
  if logToDatabase then retryFrom loadSucceeds 1 mainMaxRetries
  else StartupOutcome.ready 0 0

/-! ## Helper lemmas -/

theorem maxRow_eq_none {l : List PingRow} (h : maxRow l = none) : l = [] := by
  cases l with
  | nil => rfl
  | cons r rest =>
    rw [maxRow] at h
    cases hm : maxRow rest with
    | none => rw [hm] at h; cases h
    | some b => rw [hm] at h; cases h

theorem maxRow_mem : ∀ {l : List PingRow} {m : PingRow}, maxRow l = some m → m ∈ l := by
  intro l
  induction l with
  | nil => intro m h; cases h
  | cons r rest ih =>
    intro m h
    rw [maxRow] at h
    cases hm : maxRow rest with
    | none =>
      rw [hm] at h
      cases h
      exact List.mem_cons_self r rest
    | some b =>
      rw [hm] at h
      dsimp only at h
      by_cases hlt : r.playercount.getD 0 < b.playercount.getD 0
      · rw [if_pos hlt] at h
        cases h
        exact List.mem_cons_of_mem r (ih hm)
      · rw [if_neg hlt] at h
        cases h
        exact List.mem_cons_self r rest

theorem maxRow_max : ∀ {l : List PingRow} {m : PingRow}, maxRow l = some m →
    ∀ x ∈ l, x.playercount.getD 0 ≤ m.playercount.getD 0 := by
  intro l
  induction l with
  | nil => intro m h; cases h
  | cons r rest ih =>
    intro m h x hx
    rw [maxRow] at h
    cases hm : maxRow rest with
    | none =>
      rw [hm] at h
      cases h
      have hrest : rest = [] := maxRow_eq_none hm
      subst hrest
      rcases List.mem_cons.mp hx with hx | hx
      · subst hx; exact le_refl _
      · cases hx
    | some b =>
      rw [hm] at h
      dsimp only at h
      by_cases hlt : r.playercount.getD 0 < b.playercount.getD 0
      · rw [if_pos hlt] at h
        cases h
        rcases List.mem_cons.mp hx with hx | hx
        · subst hx; exact le_of_lt hlt
        · exact ih hm x hx
      · rw [if_neg hlt] at h
        cases h
        rcases List.mem_cons.mp hx with hx | hx
        · subst hx; exact le_refl _
        · exact le_trans (ih hm x hx) (not_lt.mp hlt)

theorem maxRow_of_ne_nil {l : List PingRow} (h : l ≠ []) : ∃ m, maxRow l = some m := by
  cases l with
  | nil => exact absurd rfl h
  | cons r rest =>
    rw [maxRow]
    cases hm : maxRow rest with
    | none => exact ⟨r, rfl⟩
    | some b => exact ⟨_, rfl⟩

theorem getRecord_insert_of_absent {records : List RecordRow} {ip : String}
    {row : RecordRow} (h : Database.getRecord records ip = none)
    (hip : row.ip = ip) :
    Database.getRecord (insertRecordIfAbsent records row) ip = some row := by
  have hfil : records.filter (fun r => decide (r.ip = ip)) = [] := by
    have h' := h
    unfold Database.getRecord at h'
    exact List.head?_eq_none_iff.mp h'
  have hnone : ∀ x ∈ records, x.ip ≠ ip := by
    intro x hx
    have hk := List.filter_eq_nil_iff.mp hfil x hx
    simpa using hk
  have hany : records.any (fun r => decide (r.ip = row.ip)) = false := by
    rw [List.any_eq_false]
    intro x hx
    simp only [decide_eq_true_eq]
    rw [hip]
    exact hnone x hx
  unfold insertRecordIfAbsent
  rw [hany]
  simp only [Bool.false_eq_true, if_false]
  unfold Database.getRecord
  rw [List.filter_append, hfil]
  simp [hip]

/-! ## Claim theorems -/

/-- C1: for a host with persisted ping samples (at least one with a non-null
count) but no `players_record` row, `loadRecords` derives the record from the
samples: `recordData.playerCount` is the maximum playercount over the host's
persisted rows, and `recordData.timestamp` is a timestamp at which that
maximum was observed. -/
theorem c1_record_derived_from_samples (pings : List PingRow)
    (records : List RecordRow) (reg : ServerRegistration)
    (hrec : Database.getRecord records reg.ip = none)
    (hsamp : ∃ r ∈ pings, r.ip = reg.ip ∧ r.playercount.isSome = true) :
    ∃ m t, ((Database.loadRecordsHost pings records reg).1).recordData =
        some { playerCount := some m, timestamp := some t } ∧
      (∃ r ∈ pings, r.ip = reg.ip ∧ r.playercount = some m ∧ r.timestamp = t) ∧
      (∀ r ∈ pings, r.ip = reg.ip → ∀ c : Int, r.playercount = some c → c ≤ m) := by
  obtain ⟨r0, hr0mem, hr0ip, hr0some⟩ := hsamp
  have hr0fl : r0 ∈ pings.filter (fun r => decide (r.ip = reg.ip) && r.playercount.isSome) := by
    rw [List.mem_filter]
    exact ⟨hr0mem, by simp [hr0ip, hr0some]⟩
  have hflne : pings.filter (fun r => decide (r.ip = reg.ip) && r.playercount.isSome) ≠ [] := by
    intro hnil
    rw [hnil] at hr0fl
    cases hr0fl
  obtain ⟨mr, hmr⟩ := maxRow_of_ne_nil hflne
  have hmr_mem := maxRow_mem hmr
  have hmr_fl := List.mem_filter.mp hmr_mem
  have hmr_pings : mr ∈ pings := hmr_fl.1
  have hmr_props : mr.ip = reg.ip ∧ mr.playercount.isSome = true := by
    have hk := hmr_fl.2
    simpa using hk
  obtain ⟨m, hm⟩ := Option.isSome_iff_exists.mp hmr_props.2
  refine ⟨m, mr.timestamp, ?_, ⟨mr, hmr_pings, hmr_props.1, hm, rfl⟩, ?_⟩
  · have hleg : Database.getRecordLegacy pings reg.ip = some mr := by
      rw [Database.getRecordLegacy]
      exact hmr
    simp only [Database.loadRecordsHost, hrec, hleg]
    simp [legacyPc, legacyTs, TimeTracker.toSeconds, hm]
  · intro r hr hip c hc
    have hrfl : r ∈ pings.filter (fun r => decide (r.ip = reg.ip) && r.playercount.isSome) := by
      rw [List.mem_filter]
      exact ⟨hr, by simp [hip, hc]⟩
    have hle := maxRow_max hmr r hrfl
    rw [hc, hm] at hle
    simpa using hle

theorem c1_witness :
    ∃ m t, ((Database.loadRecordsHost [⟨"c", 100, some 42⟩, ⟨"c", 50, some 7⟩] []
        ⟨"c", [], [], none, none⟩).1).recordData =
        some { playerCount := some m, timestamp := some t } ∧
      (∃ r ∈ ([⟨"c", 100, some 42⟩, ⟨"c", 50, some 7⟩] : List PingRow),
        r.ip = "c" ∧ r.playercount = some m ∧ r.timestamp = t) ∧
      (∀ r ∈ ([⟨"c", 100, some 42⟩, ⟨"c", 50, some 7⟩] : List PingRow),
        r.ip = "c" → ∀ c : Int, r.playercount = some c → c ≤ m) :=
  c1_record_derived_from_samples _ _ _ rfl
    ⟨⟨"c", 100, some 42⟩, by decide, by decide, by decide⟩

/-- C2, as stated, is false: `loadRecords` never promotes the in-window peak
into `recordData`.  The state here is the one the program itself reaches: the
pings table holds a count of 100 at t=10, `loadGraphPoints` populates host
"a"'s window with exactly that sample (first conjunct), and the persisted
record row is a stale 50 (reachable because `updatePlayerCountRecord` catches
its own errors, so the record can lag the pings).  Running `loadRecordsHost`
on that window and the same pings table leaves the record at 50 < 100. -/
theorem c2_counterexample :
    (Database.loadGraphPoints [⟨"a", 10, some 100⟩]
        [⟨"a", [], [], none, none⟩] ⟨[]⟩ 10 10).1 =
      [⟨"a", [10], [some 100], none, none⟩] ∧
    ((Database.loadRecordsHost [⟨"a", 10, some 100⟩] [⟨"a", some 5, some 50⟩]
        ⟨"a", [10], [some 100], none, none⟩).1).recordData =
      some { playerCount := some 50, timestamp := some 5 } ∧
    ((Database.loadRecordsHost [⟨"a", 10, some 100⟩] [⟨"a", some 5, some 50⟩]
        ⟨"a", [10], [some 100], none, none⟩).1).graphPeakData = some (100, 10) ∧
    ¬ (100 : Int) ≤ 50 := by decide

/-- C2 (amended): `loadRecords` performs no upward reconciliation of
`recordData` against the loaded window.  When a persisted record exists,
`recordData` is set to exactly that record (hence never lower than it), and
`findNewGraphPeak` recomputes the in-window peak into `graphPeakData` only;
the record table is left unchanged. -/
theorem c2_record_not_promoted (pings : List PingRow) (records : List RecordRow)
    (reg : ServerRegistration) (record : RecordRow)
    (h : Database.getRecord records reg.ip = some record) :
    ((Database.loadRecordsHost pings records reg).1).recordData =
      some { playerCount := record.playercount,
             timestamp := TimeTracker.toSeconds record.timestamp } ∧
    ((Database.loadRecordsHost pings records reg).1).graphPeakData =
      windowPeak reg.graphTimestamps reg.graphCounts ∧
    (Database.loadRecordsHost pings records reg).2 = records := by
  refine ⟨?_, ?_, ?_⟩ <;>
    simp [Database.loadRecordsHost, h, ServerRegistration.findNewGraphPeak]

theorem c2_witness :
    ((Database.loadRecordsHost [⟨"a", 10, some 100⟩] [⟨"a", some 5, some 50⟩]
        ⟨"a", [10], [some 100], none, none⟩).1).recordData =
      some { playerCount := some 50, timestamp := TimeTracker.toSeconds (some 5) } ∧
    ((Database.loadRecordsHost [⟨"a", 10, some 100⟩] [⟨"a", some 5, some 50⟩]
        ⟨"a", [10], [some 100], none, none⟩).1).graphPeakData =
      windowPeak [10] [some 100] ∧
    (Database.loadRecordsHost [⟨"a", 10, some 100⟩] [⟨"a", some 5, some 50⟩]
        ⟨"a", [10], [some 100], none, none⟩).2 = [⟨"a", some 5, some 50⟩] :=
  c2_record_not_promoted [⟨"a", 10, some 100⟩] [⟨"a", some 5, some 50⟩]
    ⟨"a", [10], [some 100], none, none⟩ ⟨"a", some 5, some 50⟩ rfl

/-- C4: `insertPing` catches any persistence-layer error, logs it, and
returns normally: for every input and every query outcome the result is
`.ok`; on success the row is appended, on failure the table is unchanged and
an error is logged. -/
theorem c4_insertPing_never_propagates (pings : List PingRow) (ip : String)
    (timestamp : Int) (unsafePlayerCount : Option Int) :
    (∀ q : Except String Unit, ∃ res,
      Database.insertPing pings ip timestamp unsafePlayerCount q = Except.ok res) ∧
    Database.insertPing pings ip timestamp unsafePlayerCount (Except.ok ()) =
      Except.ok (pings ++ [{ ip := ip, timestamp := timestamp,
                             playercount := unsafePlayerCount }], []) ∧
    (∀ e : String, Database.insertPing pings ip timestamp unsafePlayerCount
        (Except.error e) =
      Except.ok (pings, ["Cannot insert ping record of " ++ ip])) := by
  refine ⟨?_, rfl, fun e => rfl⟩
  intro q
  cases q with
  | ok u => exact ⟨_, rfl⟩
  | error e => exact ⟨_, rfl⟩

/-- C6: when no record row exists, `loadRecords` derives the record (null if
no samples either, not zero) and inserts a `players_record` row for the ip,
so a later restart reads the derived record from the table. -/
theorem c6_derived_record_persisted (pings : List PingRow)
    (records : List RecordRow) (reg : ServerRegistration)
    (h : Database.getRecord records reg.ip = none) :
    ((Database.loadRecordsHost pings records reg).1).recordData =
      some { playerCount := legacyPc (Database.getRecordLegacy pings reg.ip),
             timestamp := legacyTs (Database.getRecordLegacy pings reg.ip) } ∧
    Database.getRecord ((Database.loadRecordsHost pings records reg).2) reg.ip =
      some { ip := reg.ip,
             timestamp := legacyTs (Database.getRecordLegacy pings reg.ip),
             playercount := legacyPc (Database.getRecordLegacy pings reg.ip) } ∧
    (Database.getRecordLegacy pings reg.ip = none →
      ((Database.loadRecordsHost pings records reg).1).recordData =
        some { playerCount := none, timestamp := none }) := by
  simp only [Database.loadRecordsHost, h]
  refine ⟨rfl, ?_, ?_⟩
  · exact getRecord_insert_of_absent h rfl
  · intro hl
    rw [hl]
    rfl

theorem c6_witness :
    ((Database.loadRecordsHost [⟨"c", 100, some 42⟩] []
        ⟨"c", [], [], none, none⟩).1).recordData =
      some { playerCount := legacyPc (Database.getRecordLegacy [⟨"c", 100, some 42⟩] "c"),
             timestamp := legacyTs (Database.getRecordLegacy [⟨"c", 100, some 42⟩] "c") } ∧
    Database.getRecord ((Database.loadRecordsHost [⟨"c", 100, some 42⟩] []
        ⟨"c", [], [], none, none⟩).2) "c" =
      some { ip := "c",
             timestamp := legacyTs (Database.getRecordLegacy [⟨"c", 100, some 42⟩] "c"),
             playercount := legacyPc (Database.getRecordLegacy [⟨"c", 100, some 42⟩] "c") } ∧
    (Database.getRecordLegacy [⟨"c", 100, some 42⟩] "c" = none →
      ((Database.loadRecordsHost [⟨"c", 100, some 42⟩] []
          ⟨"c", [], [], none, none⟩).1).recordData =
        some { playerCount := none, timestamp := none }) :=
  c6_derived_record_persisted [⟨"c", 100, some 42⟩] [] ⟨"c", [], [], none, none⟩ rfl

/-- C7: enabled cleanup runs one pass immediately, arms its own repeating
timer at the configured interval (3600000 ms when unset), and each pass
deletes exactly the rows with `timestamp < now - graphDuration`. -/
theorem c7_old_pings_cleanup (configured : Option Int) (pings : List PingRow)
    (now graphDuration : Int)
    (h : configured = none ∨ ∃ i : Int, configured = some i ∧ 0 < i) :
    (Database.initOldPingsDelete configured pings now graphDuration).2.ranImmediately = true ∧
    (Database.initOldPingsDelete configured pings now graphDuration).2.timerIntervalMs =
      some (Database.oldPingsIntervalMs configured) ∧
    Database.oldPingsIntervalMs none = 3600000 ∧
    (Database.initOldPingsDelete configured pings now graphDuration).1 =
      Database.deleteOldPings pings now graphDuration ∧
    (∀ r ∈ pings, r.timestamp < now - graphDuration →
      r ∉ Database.deleteOldPings pings now graphDuration) ∧
    (∀ r ∈ pings, ¬ r.timestamp < now - graphDuration →
      r ∈ Database.deleteOldPings pings now graphDuration) := by
  have hpos : 0 < Database.oldPingsIntervalMs configured := by
    rcases h with h | ⟨i, hi, hipos⟩
    · rw [h]; norm_num [Database.oldPingsIntervalMs]
    · rw [hi]
      simp only [Database.oldPingsIntervalMs]
      rw [if_neg (by omega)]
      exact hipos
  refine ⟨rfl, ?_, rfl, rfl, ?_, ?_⟩
  · simp only [Database.initOldPingsDelete]
    rw [if_pos hpos]
  · intro r _ hold hmem
    rw [Database.deleteOldPings, List.mem_filter] at hmem
    have hk := hmem.2
    simp only [decide_eq_true_eq] at hk
    exact hk hold
  · intro r hr hnew
    rw [Database.deleteOldPings, List.mem_filter]
    exact ⟨hr, by simpa using hnew⟩

theorem c7_witness :
    (Database.initOldPingsDelete none [⟨"a", 0, some 1⟩, ⟨"a", 100, some 2⟩] 150 100).2.ranImmediately = true ∧
    (Database.initOldPingsDelete none [⟨"a", 0, some 1⟩, ⟨"a", 100, some 2⟩] 150 100).2.timerIntervalMs =
      some (Database.oldPingsIntervalMs none) ∧
    Database.oldPingsIntervalMs none = 3600000 ∧
    (Database.initOldPingsDelete none [⟨"a", 0, some 1⟩, ⟨"a", 100, some 2⟩] 150 100).1 =
      Database.deleteOldPings [⟨"a", 0, some 1⟩, ⟨"a", 100, some 2⟩] 150 100 ∧
    (∀ r ∈ ([⟨"a", 0, some 1⟩, ⟨"a", 100, some 2⟩] : List PingRow),
      r.timestamp < 150 - 100 →
      r ∉ Database.deleteOldPings [⟨"a", 0, some 1⟩, ⟨"a", 100, some 2⟩] 150 100) ∧
    (∀ r ∈ ([⟨"a", 0, some 1⟩, ⟨"a", 100, some 2⟩] : List PingRow),
      ¬ r.timestamp < 150 - 100 →
      r ∈ Database.deleteOldPings [⟨"a", 0, some 1⟩, ⟨"a", 100, some 2⟩] 150 100) :=
  c7_old_pings_cleanup none [⟨"a", 0, some 1⟩, ⟨"a", 100, some 2⟩] 150 100 (Or.inl rfl)

/-- C9: when the rehydration query returns no rows, `loadGraphPoints` leaves
every registration and the shared timestamp axis exactly as they were. -/
theorem c9_loadGraphPoints_noop_on_empty (pings : List PingRow)
    (regs : List ServerRegistration) (tracker : TimeTrackerState)
    (endTime graphDuration : Int)
    (h : Database.getRecentPings pings (endTime - graphDuration) endTime = []) :
    Database.loadGraphPoints pings regs tracker endTime graphDuration =
      (regs, tracker) := by
  simp only [Database.loadGraphPoints, h, relativeGraphData, relKeys,
    List.map_nil, List.foldl_nil]

theorem c9_witness :
    Database.getRecentPings [⟨"a", 5, some 1⟩] (3 - 2) 3 = [] ∧
    Database.loadGraphPoints [⟨"a", 5, some 1⟩] [] ⟨[]⟩ 3 2 = ([], ⟨[]⟩) :=
  ⟨by decide, c9_loadGraphPoints_noop_on_empty [⟨"a", 5, some 1⟩] [] ⟨[]⟩ 3 2 (by decide)⟩

/-- C10: every startup variant defaults an unset (falsy)
`serverGraphDuration` to `3 * 60 * 10000` = 1,800,000 ms, i.e. thirty
minutes, not the three minutes the warning message claims. -/
theorem c10_serverGraphDuration_default :
    mainJsServerGraphDurationDefault = 1800000 ∧
    mainJsLegacyServerGraphDurationDefault = 1800000 ∧
    mainJsAsyncServerGraphDurationDefault = 1800000 ∧
    part000ServerGraphDurationDefault = 1800000 ∧
    part001ServerGraphDurationDefault = 1800000 ∧
    mainJsServerGraphDurationDefault = 30 * 60 * 1000 ∧
    mainJsServerGraphDurationDefault ≠ 3 * 60 * 1000 ∧
    applyServerGraphDurationDefault none = some 1800000 ∧
    applyServerGraphDurationDefault (some 0) = some 1800000 := by decide

theorem mem_updateFirstReg : ∀ {regs : List ServerRegistration} {ip : String}
    {f : ServerRegistration → ServerRegistration} {r' : ServerRegistration},
    r' ∈ updateFirstReg regs ip f → r' ∈ regs ∨ ∃ r ∈ regs, r' = f r := by
  intro regs
  induction regs with
  | nil => intro ip f r' h; cases h
  | cons r rest ih =>
    intro ip f r' h
    rw [updateFirstReg] at h
    by_cases hip : r.ip = ip
    · rw [if_pos hip] at h
      rcases List.mem_cons.mp h with h | h
      · exact Or.inr ⟨r, List.mem_cons_self r rest, h⟩
      · exact Or.inl (List.mem_cons_of_mem r h)
    · rw [if_neg hip] at h
      rcases List.mem_cons.mp h with h | h
      · exact Or.inl (by rw [h]; exact List.mem_cons_self r rest)
      · rcases ih h with h | ⟨r2, hr2, he⟩
        · exact Or.inl (List.mem_cons_of_mem r h)
        · exact Or.inr ⟨r2, List.mem_cons_of_mem r hr2, he⟩

theorem mem_foldl_updateFirst (startTime : Int) :
    ∀ (rel : List (String × List Int × List (Option Int)))
      (regs : List ServerRegistration) (r' : ServerRegistration),
      r' ∈ rel.foldl (fun rs e => updateFirstReg rs e.1
        (fun r => r.loadGraphPoints startTime e.2.1 e.2.2)) regs →
      r' ∈ regs ∨ ∃ e ∈ rel, ∃ r : ServerRegistration,
        r' = r.loadGraphPoints startTime e.2.1 e.2.2 := by
  intro rel
  induction rel with
  | nil => intro regs r' h; exact Or.inl h
  | cons e es ih =>
    intro regs r' h
    rw [List.foldl_cons] at h
    rcases ih _ r' h with h | ⟨e2, he2, r2, hr2⟩
    · rcases mem_updateFirstReg h with h | ⟨r2, _, hr2⟩
      · exact Or.inl h
      · exact Or.inr ⟨e, List.mem_cons_self e es, r2, hr2⟩
    · exact Or.inr ⟨e2, List.mem_cons_of_mem e he2, r2, hr2⟩

theorem relativeGraphData_entry_sorted {rows : List PingRow}
    (hs : List.Pairwise (fun a b : PingRow => a.timestamp ≤ b.timestamp) rows)
    {e : String × List Int × List (Option Int)}
    (he : e ∈ relativeGraphData rows) :
    List.Pairwise (· ≤ ·) e.2.1 := by
  rw [relativeGraphData] at he
  obtain ⟨k, _, hek⟩ := List.mem_map.mp he
  cases hek
  dsimp only
  exact List.pairwise_map.mpr
    (List.Pairwise.sublist (List.filter_sublist _) hs)

/-- C3, as stated, is false: with hosts "a" and "b" both holding persisted
samples, the shared axis is loaded with only the first host's timestamps, so
host "b"'s loaded timestamp 2 is missing from the axis. -/
theorem c3_counterexample :
    (Database.loadGraphPoints
        [⟨"a", 1, some 5⟩, ⟨"b", 1, some 3⟩, ⟨"b", 2, some 4⟩]
        [⟨"a", [], [], none, none⟩, ⟨"b", [], [], none, none⟩] ⟨[]⟩ 2 2).2.axis = [1] ∧
    (∃ reg ∈ (Database.loadGraphPoints
        [⟨"a", 1, some 5⟩, ⟨"b", 1, some 3⟩, ⟨"b", 2, some 4⟩]
        [⟨"a", [], [], none, none⟩, ⟨"b", [], [], none, none⟩] ⟨[]⟩ 2 2).1,
      reg.ip = "b" ∧ reg.graphTimestamps = [1, 2]) ∧
    ¬ ((2 : Int) ∈ (Database.loadGraphPoints
        [⟨"a", 1, some 5⟩, ⟨"b", 1, some 3⟩, ⟨"b", 2, some 4⟩]
        [⟨"a", [], [], none, none⟩, ⟨"b", [], [], none, none⟩] ⟨[]⟩ 2 2).2.axis) := by
  decide

/-- C3 (amended): after rehydration the shared axis equals exactly the loaded
timestamp sequence of the first host occurring in the returned ping data;
other hosts' loaded timestamps appear in the axis only insofar as they also
occur in that first host's sequence. -/
theorem c3_axis_is_first_host_only (pings : List PingRow)
    (regs : List ServerRegistration) (tracker : TimeTrackerState)
    (endTime graphDuration : Int) (row : PingRow) (rest : List PingRow)
    (h : Database.getRecentPings pings (endTime - graphDuration) endTime = row :: rest) :
    (Database.loadGraphPoints pings regs tracker endTime graphDuration).2.axis =
      ((row :: rest).filter (fun r => decide (r.ip = row.ip))).map
        (fun r => r.timestamp) := by
  simp only [Database.loadGraphPoints, h, relativeGraphData, relKeys, List.map_cons]
  rfl

theorem c3_witness :
    (Database.loadGraphPoints [⟨"a", 1, some 5⟩, ⟨"b", 2, some 4⟩]
        [⟨"a", [], [], none, none⟩] ⟨[]⟩ 2 2).2.axis =
      (([⟨"a", 1, some 5⟩, ⟨"b", 2, some 4⟩] : List PingRow).filter
        (fun r => decide (r.ip = "a"))).map (fun r => r.timestamp) :=
  c3_axis_is_first_host_only [⟨"a", 1, some 5⟩, ⟨"b", 2, some 4⟩]
    [⟨"a", [], [], none, none⟩] ⟨[]⟩ 2 2
    ⟨"a", 1, some 5⟩ [⟨"b", 2, some 4⟩] (by decide)

theorem retryFrom_all_fail (f : Nat → Bool) :
    ∀ (remaining attempt : Nat),
      (∀ j, attempt ≤ j → j < attempt + remaining → f j = false) →
      retryFrom f attempt remaining = StartupOutcome.exited 1 := by
  intro remaining
  induction remaining with
  | zero => intro attempt h; rfl
  | succ r ih =>
    intro attempt h
    rw [retryFrom]
    have hf : f attempt = false := h attempt (le_refl _) (by omega)
    rw [hf]
    simp only [Bool.false_eq_true, if_false]
    by_cases hr : r = 0
    · rw [if_pos hr]
    · rw [if_neg hr]
      exact ih (attempt + 1) (fun j hj1 hj2 => h j (by omega) (by omega))

theorem retryFrom_ready (f : Nat → Bool) :
    ∀ (remaining attempt i d : Nat),
      retryFrom f attempt remaining = StartupOutcome.ready i d →
      attempt ≤ i ∧ i < attempt + remaining ∧ f i = true ∧
        d = (i - 1) * mainRetryDelayMs ∧
        ∀ j, attempt ≤ j → j < i → f j = false := by
  intro remaining
  induction remaining with
  | zero => intro attempt i d h; cases h
  | succ r ih =>
    intro attempt i d h
    rw [retryFrom] at h
    by_cases hf : f attempt = true
    · rw [if_pos hf] at h
      cases h
      exact ⟨le_refl _, by omega, hf, rfl, fun j hj1 hj2 => absurd hj1 (by omega)⟩
    · rw [if_neg hf] at h
      by_cases hr : r = 0
      · rw [if_pos hr] at h; cases h
      · rw [if_neg hr] at h
        obtain ⟨h1, h2, h3, h4, h5⟩ := ih (attempt + 1) i d h
        refine ⟨by omega, by omega, h3, h4, ?_⟩
        intro j hj1 hj2
        by_cases hj : j = attempt
        · subst hj
          simpa using hf
        · exact h5 j (by omega) hj2

/-- C5: with database logging enabled, startup retries the database load up
to 10 attempts with a 15-second pause between failed attempts; if every
attempt fails the process exits with status 1, and the monitoring loop only
ever starts after an attempt on which the load succeeded. -/
theorem c5_startup_retry_backoff (f : Nat → Bool) :
    mainMaxRetries = 10 ∧ mainRetryDelayMs = 15000 ∧
    ((∀ i, 1 ≤ i → i ≤ 10 → f i = false) →
      mainStartup true f = StartupOutcome.exited 1) ∧
    (∀ i d, mainStartup true f = StartupOutcome.ready i d →
      f i = true ∧ 1 ≤ i ∧ i ≤ 10 ∧ d = (i - 1) * 15000 ∧
      ∀ j, 1 ≤ j → j < i → f j = false) := by
  refine ⟨rfl, rfl, ?_, ?_⟩
  · intro hall
    show retryFrom f 1 mainMaxRetries = StartupOutcome.exited 1
    exact retryFrom_all_fail f 10 1 (fun j hj1 hj2 => hall j hj1 (by omega))
  · intro i d h
    have h' : retryFrom f 1 10 = StartupOutcome.ready i d := h
    obtain ⟨h1, h2, h3, h4, h5⟩ := retryFrom_ready f 10 1 i d h'
    exact ⟨h3, h1, by omega, h4, fun j hj1 hj2 => h5 j hj1 hj2⟩

theorem c5_witness :
    (fun i => decide (i = 3)) 2 = false ∧
    mainStartup true (fun i => decide (i = 3)) = StartupOutcome.ready 3 30000 :=
  ⟨((c5_startup_retry_backoff (fun i => decide (i = 3))).2.2.2 3 30000
      (by decide)).2.2.2.2 2 (by decide) (by decide),
   by decide⟩

/-- C8, as stated, is false: the rehydration query carries no `ORDER BY`, so
when the persistence layer returns this host's two in-range rows with the
later timestamp first, the window is populated as `[2, 1]`, which is not
time-ascending. -/
theorem c8_counterexample :
    ∃ reg ∈ (Database.loadGraphPoints [⟨"a", 2, some 1⟩, ⟨"a", 1, some 2⟩]
        [⟨"a", [], [], none, none⟩] ⟨[]⟩ 2 2).1,
      reg.graphTimestamps = [2, 1] ∧
      ¬ List.Pairwise (· ≤ ·) reg.graphTimestamps := by
  decide

/-- C8 (amended): provided the rows come back from the persistence layer in
non-decreasing timestamp order, every window populated by `loadGraphPoints`
receives a non-decreasing timestamp sequence (windows it does not touch keep
their previous timestamps). -/
theorem c8_windows_sorted_of_sorted_rows (pings : List PingRow)
    (regs : List ServerRegistration) (tracker : TimeTrackerState)
    (endTime graphDuration : Int)
    (hs : List.Pairwise (fun a b : PingRow => a.timestamp ≤ b.timestamp) pings) :
    ∀ reg' ∈ (Database.loadGraphPoints pings regs tracker endTime graphDuration).1,
      (∃ reg ∈ regs, reg'.graphTimestamps = reg.graphTimestamps) ∨
      List.Pairwise (· ≤ ·) reg'.graphTimestamps := by
  intro reg' hmem
  have hsp : List.Pairwise (fun a b : PingRow => a.timestamp ≤ b.timestamp)
      (Database.getRecentPings pings (endTime - graphDuration) endTime) :=
    List.Pairwise.sublist (List.filter_sublist _) hs
  have hmem' : reg' ∈ (relativeGraphData
      (Database.getRecentPings pings (endTime - graphDuration) endTime)).foldl
      (fun rs e => updateFirstReg rs e.1
        (fun r => r.loadGraphPoints (endTime - graphDuration) e.2.1 e.2.2)) regs := hmem
  rcases mem_foldl_updateFirst _ _ _ _ hmem' with h | ⟨e, he, r, hr⟩
  · exact Or.inl ⟨reg', h, rfl⟩
  · right
    rw [hr]
    show List.Pairwise (· ≤ ·) e.2.1
    exact relativeGraphData_entry_sorted hsp he

theorem c8_witness :
    (∃ reg ∈ ([⟨"a", [], [], none, none⟩] : List ServerRegistration),
      (⟨"a", [1, 2], [some 1, some 2], none, none⟩ : ServerRegistration).graphTimestamps =
        reg.graphTimestamps) ∨
    List.Pairwise (· ≤ ·)
      (⟨"a", [1, 2], [some 1, some 2], none, none⟩ : ServerRegistration).graphTimestamps :=
  c8_windows_sorted_of_sorted_rows [⟨"a", 1, some 1⟩, ⟨"a", 2, some 2⟩]
    [⟨"a", [], [], none, none⟩] ⟨[]⟩ 2 2 (by decide)
    ⟨"a", [1, 2], [some 1, some 2], none, none⟩ (by decide)
